import Mathlib

/-!
# Bed removal from CT scans: a verification development of `main.cxx`

The program reads a 3-D CT volume, shrinks it in-plane by 3, thresholds it to a
body mask, opens and closes the mask with ball structuring elements, resamples
the mask back to the full grid and overwrites the voxels the mask marks as
background with the air value -1024.

Conventions of the embedding.

* `PixelType` is `float` in the source.  Intensities are embedded as exact
  rationals; every constant the program compares against or stores
  (0, -3000, -1024, -300, 3071) is exactly representable.
* `itk::Size` components are `unsigned long`; they are embedded as `Nat` and are
  only ever divided by 3.  `itk::Index` components are `long`, embedded as `Int`.
* The loop bounds `pRow`, `pCol`, `pSli` are `int`: the conversion from
  `unsigned long` is embedded with its wrap-around (`toInt`).
* An image buffer is embedded as a function from indices to pixel values
  together with the size of its region; only indices inside the region are
  ever read by the program.
* `itk::ResampleImageFilter` is not part of the repository's sources, and the
  spec does not say what it returns at the border of the grid: the pipeline
  takes it as a parameter.
-/

namespace BedRemove

/-! ## Data model -/

/-- Pixel buffer of an `itk::Image<T,3>`, addressed by an `itk::Index<3>`. -/
abbrev Img (α : Type) := Int → Int → Int → α

/-- Value of `itk::Size<3>` (three `unsigned long`). -/
abbrev Size3 := Nat × Nat × Nat

/-- Value of `ImageType::SpacingType` (three `double`). -/
abbrev Spacing3 := ℚ × ℚ × ℚ

/-- What the reader hands to the pipeline: lines 84-87 read these four. -/
structure Geometry where
  size : Size3
  spacing : Spacing3
  origin : ℚ × ℚ × ℚ
  direction : Fin 3 → Fin 3 → ℚ

/-- Input volume held by `reader->GetOutput()`. -/
structure Volume where
  geom : Geometry
  px : Img ℚ

/-- Conversion `int x = n` for an `unsigned long` n (lines 89-91): the low 32
bits read as a two's-complement number. -/
def toInt (n : Nat) : Int := ((n + 2147483648) % 4294967296 : Nat) - 2147483648

/-! ## Mask Applicator (lines 88-91 and 176-190) -/

/-- Effect of `image->SetPixel(index, v)`. -/
def setPixel (img : Img ℚ) (i j k : Int) (v : ℚ) : Img ℚ :=
  fun a b c => if a = i ∧ b = j ∧ c = k then v else img a b c

/-- Condition of line 186, on the mask voxel read twice. -/
def maskCond (m : ℚ) : Bool := decide (m = 0) && decide (m > -3000)

/-- Body of the loop nest, lines 182-187. -/
def maskStep (mask : Img ℚ) (vol : Img ℚ) (i j k : Int) : Img ℚ :=
  if maskCond (mask i j k) = true then setPixel vol i j k (-1024) else vol

/-- Innermost loop `for (int j=0; j<pCol; j++)`. -/
def loopJ (pCol : Int) (mask : Img ℚ) (vol : Img ℚ) (i k : Int) : Img ℚ :=
  (List.range pCol.toNat).foldl (fun v (j : Nat) => maskStep mask v i (j : Int) k) vol

/-- Middle loop `for (int i=0; i<pRow; i++)`. -/
def loopI (pRow pCol : Int) (mask : Img ℚ) (vol : Img ℚ) (k : Int) : Img ℚ :=
  (List.range pRow.toNat).foldl (fun v (i : Nat) => loopJ pCol mask v (i : Int) k) vol

/-- Outer loop `for (int k=0; k<pSli; k++)`: the whole loop nest, with the
in-place mutation of the volume made explicit state passing. -/
def applyMask (pRow pCol pSli : Int) (mask : Img ℚ) (vol : Img ℚ) : Img ℚ :=
  (List.range pSli.toNat).foldl (fun v (k : Nat) => loopI pRow pCol mask v (k : Int)) vol

/-- Lines 88-91 and 176-190: the Mask Applicator on a volume of size `insize`.
The loop bounds `pRow`, `pCol`, `pSli` are the three sizes converted to `int`. -/
def maskApplicator (insize : Size3) (mask : Img ℚ) (vol : Img ℚ) : Img ℚ :=
  applyMask (toInt insize.1) (toInt insize.2.1) (toInt insize.2.2) mask vol

/-! ## Command line (lines 41-51 and 196-199) -/

/-- Conversion of a `char *` to `bool`: true exactly for a non-null pointer.
`argv[i]` is embedded as `argv.get? i`, null past the last argument. -/
def ptrToBool (p : Option String) : Bool := p.isSome

/-- Lines 49-51: `bool Output=0; if (argc==4) Output=argv[3];`. -/
def outputFlag (argv : List String) : Bool :=
  if argv.length = 4 then ptrToBool (argv.get? 3) else false

/-- The two things the writer can be given. -/
inductive Artifact where
  | bedRemoved
  | bodyMask
  deriving DecidableEq, Repr

/-- Lines 196-199: `if(Output==1)` the writer gets `resampleUP->GetOutput()`,
else `reader->GetOutput()`. -/
def writerInput (argv : List String) : Artifact :=
  if outputFlag argv = true then Artifact.bodyMask else Artifact.bedRemoved

/-- Artifact announced by the usage text of line 44 for an optional
output-type argument: `0=Bed Removed Image, 1=Body Mask; def.=0`. -/
def usageArtifact (outputType : Option String) : Option Artifact :=
  match outputType with
  | none => some Artifact.bedRemoved
  | some t => if t = "0" then some Artifact.bedRemoved
              else if t = "1" then some Artifact.bodyMask else none

/-! ## Downsampler geometry (lines 84-121) -/

/-- Lines 98-101: `outputSize[0]=insize[0]/3` and so on, in `unsigned long`. -/
def outputSize (insize : Size3) : Size3 :=
  (insize.1 / 3, insize.2.1 / 3, insize.2.2)

/-- Quotient of two doubles over exact rationals.  A zero divisor gives an
infinity or a NaN in the source, which is no rational: `none`. -/
def divDouble (a b : ℚ) : Option ℚ :=
  if b = 0 then none else some (a / b)

/-- Lines 102-105: the in-plane spacings are multiplied by
`static_cast<double>(insize[d]) / outputSize[d]`, the slice spacing is copied.
`none` when one of the two quotients is not finite. -/
def outputSpacing (spacing : Spacing3) (insize : Size3) : Option Spacing3 :=
  match divDouble (insize.1 : ℚ) ((outputSize insize).1 : ℚ),
        divDouble (insize.2.1 : ℚ) ((outputSize insize).2.1 : ℚ) with
  | some qx, some qy => some (spacing.1 * qx, spacing.2.1 * qy, spacing.2.2)
  | _, _ => none

/-- Settings given to a `ResampleImageFilter` by its setters. -/
structure ResampleRequest where
  size : Size3
  spacing : Option Spacing3
  origin : ℚ × ℚ × ℚ
  direction : Fin 3 → Fin 3 → ℚ

/-- Lines 113-119: the settings of `resampleDN`. -/
def resampleDNRequest (g : Geometry) : ResampleRequest :=
  { size := outputSize g.size
    spacing := outputSpacing g.spacing g.size
    origin := g.origin
    direction := g.direction }

/-- Process exit status of `main`. -/
inductive ExitCode where
  | EXIT_SUCCESS
  | EXIT_FAILURE
  deriving DecidableEq, Repr

/-- Control flow of `main` from its entry to the first filter execution
(`resampleDN->UpdateLargestPossibleRegion()`, line 121).  The only two exits
before it are the argument-count test (line 41) and a reader exception
(lines 69-80); `file` is the outcome of `reader->Update()`.  On `ok` the
Downsampler runs with the returned settings. -/
def preFilter (argv : List String) (file : Except String Geometry) :
    Except ExitCode ResampleRequest :=
  if argv.length < 3 then Except.error ExitCode.EXIT_FAILURE
  else
    match file with
    | Except.error _ => Except.error ExitCode.EXIT_FAILURE
    | Except.ok g => Except.ok (resampleDNRequest g)

/-! ## Body Thresholder (lines 124-131) -/

/-- Modelled from the spec: the pixel rule of `itk::BinaryThresholdImageFilter`,
whose code is not part of the repository's sources.  The spec (4.2) gives it as
a closed interval: values inside `[lower, upper]` map to the inside value, all
others to the outside value. -/
def binaryThreshold (lower upper : ℚ) (inside outside : Nat) (v : ℚ) : Nat :=
  if lower ≤ v ∧ v ≤ upper then inside else outside

/-- Lines 124-131: the filter as `main` configures it, outside value 0, inside
value 1, thresholds -300 and 3071, applied to every voxel. -/
def binaryskinfilter (img : Img ℚ) : Img Nat :=
  fun i j k => binaryThreshold (-300) 3071 1 0 (img i j k)

/-! ## Morphological Refiner (lines 133-158) -/

/-- Value of `itk::ImageRegion<3>`: start index and size. -/
structure Region where
  index : Int × Int × Int
  size : Size3

/-- Test `region.IsInside(index)`. -/
def Region.contains (R : Region) (i j k : Int) : Bool :=
  decide (R.index.1 ≤ i ∧ i < R.index.1 + (R.size.1 : Int)
    ∧ R.index.2.1 ≤ j ∧ j < R.index.2.1 + (R.size.2.1 : Int)
    ∧ R.index.2.2 ≤ k ∧ k < R.index.2.2 + (R.size.2.2 : Int))

/-- Region of an image that starts at index 0. -/
def Region.ofSize (sz : Size3) : Region := { index := (0, 0, 0), size := sz }

/-- Region grown by `rad` voxels on both sides of every axis. -/
def Region.pad (R : Region) (rad : Nat) : Region :=
  { index := (R.index.1 - rad, R.index.2.1 - rad, R.index.2.2 - rad)
    size := (R.size.1 + 2 * rad, R.size.2.1 + 2 * rad, R.size.2.2 + 2 * rad) }

/-- Modelled from the spec: the offsets switched on in an
`itk::BinaryBallStructuringElement` of radius `r`, whose code is not part of the
repository's sources; the glossary calls it a solid ball of the given radius.
No result below depends on which offsets the element holds. -/
def ballOffsets (r : Nat) : List (Int × Int × Int) :=
  let axis : List Int := (List.range (2 * r + 1)).map (fun (n : Nat) => (n : Int) - (r : Int))
  (axis.flatMap (fun x => axis.flatMap (fun y => axis.map (fun z => (x, y, z))))).filter
    (fun d => decide (d.1 * d.1 + d.2.1 * d.2.1 + d.2.2 * d.2.2 ≤ (r : Int) * (r : Int)))

/-- Modelled from the spec: binary dilation (`itk::BinaryDilateImageFilter`, not
part of the repository's sources) over the region `R`.  A voxel reached by the
element from a foreground voxel of the region becomes foreground; every other
voxel keeps its value.  Voxels outside the region count as background. -/
def binaryDilate (R : Region) (K : List (Int × Int × Int)) (fg : Nat) (f : Img Nat) :
    Img Nat :=
  fun i j k =>
    if K.any (fun d => R.contains (i - d.1) (j - d.2.1) (k - d.2.2)
        && decide (f (i - d.1) (j - d.2.1) (k - d.2.2) = fg)) = true
    then fg else f i j k

/-- Modelled from the spec: binary erosion (`itk::BinaryErodeImageFilter`, not
part of the repository's sources) over the region `R`.  A foreground voxel from
which the element reaches a non-foreground voxel of the region becomes
background; every other voxel keeps its value.  Voxels outside the region count
as foreground, the filter's default boundary rule. -/
def binaryErode (R : Region) (K : List (Int × Int × Int)) (fg bg : Nat) (f : Img Nat) :
    Img Nat :=
  fun i j k =>
    if f i j k = fg ∧ K.any (fun d => R.contains (i + d.1) (j + d.2.1) (k + d.2.2)
        && decide (f (i + d.1) (j + d.2.1) (k + d.2.2) ≠ fg)) = true
    then bg else f i j k

/-- Modelled from the spec: morphological opening, "erosion followed by
dilation" (`itk::BinaryMorphologicalOpeningImageFilter`, not part of the
repository's sources), with background value 0. -/
def morphOpening (R : Region) (K : List (Int × Int × Int)) (fg : Nat) (f : Img Nat) :
    Img Nat :=
  binaryDilate R K fg (binaryErode R K fg 0 f)

/-- Modelled from the spec: the padding step of the closing filter
(`itk::ConstantPadImageFilter`, not part of the repository's sources): the image
on `R`, background elsewhere. -/
def padImage (R : Region) (f : Img Nat) : Img Nat :=
  fun i j k => if R.contains i j k = true then f i j k else 0

/-- Modelled from the spec: morphological closing, "dilation followed by
erosion" (`itk::BinaryMorphologicalClosingImageFilter`, not part of the
repository's sources).  The filter's default safe border is kept: the image is
padded with background by the element's radius, dilated and eroded on the padded
region, and cropped back, so the result is read on `R` only. -/
def morphClosing (R : Region) (rad : Nat) (K : List (Int × Int × Int)) (fg : Nat)
    (f : Img Nat) : Img Nat :=
  binaryErode (R.pad rad) K fg 0 (binaryDilate (R.pad rad) K fg (padImage R f))

/-- Lines 133-145: opening with the ball of radius 3, foreground value 1, on an
image of size `sz`. -/
def openingFilter (sz : Size3) (f : Img Nat) : Img Nat :=
  morphOpening (Region.ofSize sz) (ballOffsets 3) 1 f

/-- Lines 149-158 on label values: closing with the ball of radius 40,
foreground value 1. -/
def closingMask (sz : Size3) (f : Img Nat) : Img Nat :=
  morphClosing (Region.ofSize sz) 40 (ballOffsets 40) 1 f

/-- Lines 149-158: the closing filter's output image has pixel type `float`. -/
def closingFilter (sz : Size3) (f : Img Nat) : Img ℚ :=
  fun i j k => (closingMask sz f i j k : ℚ)

/-- Number of voxels of value 1 in an image of size `sz`. -/
def countFg {α : Type} [DecidableEq α] [One α] (sz : Size3) (f : Img α) : Nat :=
  ∑ k in Finset.range sz.2.2, ∑ i in Finset.range sz.1, ∑ j in Finset.range sz.2.1,
    if f (i : Int) (j : Int) (k : Int) = 1 then 1 else 0

/-! ## Resampling (lines 107-121 and 162-170) -/

/-- Stands for `itk::ResampleImageFilter`, whose code is not part of the
repository's sources: from the size, spacing and buffer of its input and the
size and spacing set for its output (`SetSize`, `SetOutputSpacing`) it gives the
output buffer.  Both uses hand it the identity transform and the reader's origin
and direction, which are therefore no arguments.  Neither the source nor the
spec fixes its values near the border of the grid, so it is a parameter of the
pipeline. -/
abbrev Resampler := Size3 → Spacing3 → Img ℚ → Size3 → Spacing3 → Img ℚ

/-! ## The pipeline (lines 84-190) -/

/-- Images held by the filters when `main` reaches the writer. -/
structure Stages where
  /-- Size of the working grid, `outputSize`. -/
  workSize : Size3
  /-- Spacing of the working grid, `outputSpacing`. -/
  workSpacing : Spacing3
  /-- Output of `resampleDN`. -/
  down : Img ℚ
  /-- Output of `binaryskinfilter`. -/
  thresholded : Img Nat
  /-- Output of `openingFilter`. -/
  opened : Img Nat
  /-- Output of `closingFilter`: the refined mask on the working grid. -/
  refined : Img ℚ
  /-- Output of `resampleUP`: the reconstructed full-resolution mask. -/
  mask : Img ℚ
  /-- Buffer of `reader->GetOutput()` after the masking loop. -/
  bedRemoved : Img ℚ

/-- Lines 107-190 for a finite working spacing `osp`: the five stages in the
order `main` runs them, with `resample` standing for the resampling filter. -/
def runStages (resample : Resampler) (V : Volume) (osp : Spacing3) : Stages :=
  let osz := outputSize V.geom.size
  let down := resample V.geom.size V.geom.spacing V.px osz osp
  let thresholded := binaryskinfilter down
  let opened := openingFilter osz thresholded
  let refined := closingFilter osz opened
  let mask := resample osz osp refined V.geom.size V.geom.spacing
  { workSize := osz
    workSpacing := osp
    down := down
    thresholded := thresholded
    opened := opened
    refined := refined
    mask := mask
    bedRemoved := maskApplicator V.geom.size mask V.px }

/-- Lines 84-190 as one function of the volume read.  `none` stands for a run
whose working spacing is not finite (a zero working size), which the exact
arithmetic of this embedding does not follow any further. -/
def pipeline (resample : Resampler) (V : Volume) : Option Stages :=
  match outputSpacing V.geom.spacing V.geom.size with
  | none => none
  | some osp => some (runStages resample V osp)

/-! ## Concrete inputs used by the instances below -/

/-- A full-resolution mask that is 0 everywhere. -/
def maskZero : Img ℚ := fun _ _ _ => 0

/-- A volume of soft tissue, 40 HU everywhere. -/
def volEx : Img ℚ := fun _ _ _ => 40

/-- Geometry of a 301 x 301 x 50 scan with 0.7 mm pixels and 2.5 mm slices. -/
def geomEx : Geometry :=
  { size := (301, 301, 50)
    spacing := (7 / 10, 7 / 10, 5 / 2)
    origin := (0, 0, 0)
    direction := fun a b => if a = b then 1 else 0 }

/-- Geometry of a 2 x 2 x 5 scan: its working size is zero in both in-plane
axes. -/
def geomDegenerate : Geometry :=
  { size := (2, 2, 5)
    spacing := (1, 1, 1)
    origin := (0, 0, 0)
    direction := fun a b => if a = b then 1 else 0 }

/-- A binary working-grid mask: a block of foreground in rows 2 to 5. -/
def blockEx : Img Nat := fun i _ _ => if 2 ≤ i ∧ i ≤ 5 then 1 else 0

/-- A 2147483648 x 3 x 1 volume of air, -1000 HU everywhere: its row count does
not fit the `int` loop bound `pRow`. -/
def airHuge : Volume :=
  { geom := { size := (2147483648, 3, 1)
              spacing := (1, 1, 1)
              origin := (0, 0, 0)
              direction := fun a b => if a = b then 1 else 0 }
    px := fun _ _ _ => -1000 }

/-! ## Mask Applicator: lemmas -/

theorem maskCond_iff (m : ℚ) : maskCond m = true ↔ m = 0 := by
  unfold maskCond
  constructor
  · intro h
    simp only [Bool.and_eq_true, decide_eq_true_eq] at h
    exact h.1
  · intro h
    subst h
    simp

theorem maskStep_apply (mask vol : Img ℚ) (i j k a b c : Int) :
    maskStep mask vol i j k a b c
      = if a = i ∧ b = j ∧ c = k ∧ mask a b c = 0 then -1024 else vol a b c := by
  unfold maskStep
  by_cases hc : maskCond (mask i j k) = true
  · rw [if_pos hc]
    rw [maskCond_iff] at hc
    unfold setPixel
    by_cases hidx : a = i ∧ b = j ∧ c = k
    · obtain ⟨rfl, rfl, rfl⟩ := hidx
      rw [if_pos ⟨rfl, rfl, rfl⟩, if_pos ⟨rfl, rfl, rfl, hc⟩]
    · rw [if_neg hidx, if_neg]
      rintro ⟨h1, h2, h3, _⟩
      exact hidx ⟨h1, h2, h3⟩
  · rw [if_neg hc, if_neg]
    rw [maskCond_iff] at hc
    rintro ⟨rfl, rfl, rfl, h⟩
    exact hc h

theorem loopJ_apply (n : Nat) (mask vol : Img ℚ) (i k a b c : Int) :
    (List.range n).foldl (fun v (j : Nat) => maskStep mask v i (j : Int) k) vol a b c
      = if a = i ∧ c = k ∧ 0 ≤ b ∧ b < n ∧ mask a b c = 0 then -1024 else vol a b c := by
  induction n with
  | zero =>
    have : ¬ (a = i ∧ c = k ∧ 0 ≤ b ∧ b < ((0 : Nat) : Int) ∧ mask a b c = 0) := by
      rintro ⟨_, _, h0, h1, _⟩
      simp at h1
      omega
    rw [if_neg this]
    rfl
  | succ n ih =>
    rw [List.range_succ, List.foldl_append, List.foldl_cons, List.foldl_nil,
      maskStep_apply, ih]
    by_cases hm : mask a b c = 0
    · by_cases h1 : a = i ∧ b = (n : Int) ∧ c = k ∧ mask a b c = 0
      · rw [if_pos h1, if_pos]
        obtain ⟨h1, h2, h3, h4⟩ := h1
        exact ⟨h1, h3, by omega, by push_cast; omega, h4⟩
      · rw [if_neg h1]
        apply if_congr _ rfl rfl
        constructor
        · rintro ⟨h1, h2, h3, h4, h5⟩
          exact ⟨h1, h2, h3, by push_cast; omega, h5⟩
        · rintro ⟨g1, g2, g3, g4, g5⟩
          refine ⟨g1, g2, g3, ?_, g5⟩
          push_cast at g4
          by_contra hlt
          exact h1 ⟨g1, by omega, g2, g5⟩
    · rw [if_neg (fun h => hm h.2.2.2), if_neg (fun h => hm h.2.2.2.2),
        if_neg (fun h => hm h.2.2.2.2)]

theorem loopJ_eq (pCol : Int) (mask vol : Img ℚ) (i k a b c : Int) :
    loopJ pCol mask vol i k a b c
      = if a = i ∧ c = k ∧ 0 ≤ b ∧ b < (pCol.toNat : Int) ∧ mask a b c = 0
          then -1024 else vol a b c := by
  unfold loopJ
  exact loopJ_apply _ _ _ _ _ _ _ _

theorem loopI_apply (n : Nat) (pCol : Int) (mask vol : Img ℚ) (k a b c : Int) :
    (List.range n).foldl (fun v (i : Nat) => loopJ pCol mask v (i : Int) k) vol a b c
      = if c = k ∧ 0 ≤ a ∧ a < n ∧ 0 ≤ b ∧ b < pCol ∧ mask a b c = 0
          then -1024 else vol a b c := by
  induction n with
  | zero =>
    have : ¬ (c = k ∧ 0 ≤ a ∧ a < ((0 : Nat) : Int) ∧ 0 ≤ b ∧ b < pCol ∧ mask a b c = 0) := by
      rintro ⟨_, h0, h1, _⟩
      simp at h1
      omega
    rw [if_neg this]
    rfl
  | succ n ih =>
    rw [List.range_succ, List.foldl_append, List.foldl_cons, List.foldl_nil, loopJ_eq, ih]
    by_cases hm : mask a b c = 0
    · by_cases h1 : a = (n : Int) ∧ c = k ∧ 0 ≤ b ∧ b < (pCol.toNat : Int) ∧ mask a b c = 0
      · rw [if_pos h1, if_pos]
        obtain ⟨h1, h2, h3, h4, h5⟩ := h1
        exact ⟨h2, by omega, by push_cast; omega, h3, by omega, h5⟩
      · rw [if_neg h1]
        apply if_congr _ rfl rfl
        constructor
        · rintro ⟨g1, g2, g3, g4, g5, g6⟩
          exact ⟨g1, g2, by push_cast; omega, g4, g5, g6⟩
        · rintro ⟨g1, g2, g3, g4, g5, g6⟩
          refine ⟨g1, g2, ?_, g4, g5, g6⟩
          push_cast at g3
          by_contra hlt
          exact h1 ⟨by omega, g1, g4, by omega, g6⟩
    · rw [if_neg (fun h => hm h.2.2.2.2), if_neg (fun h => hm h.2.2.2.2.2),
        if_neg (fun h => hm h.2.2.2.2.2)]

theorem loopI_eq (pRow pCol : Int) (mask vol : Img ℚ) (k a b c : Int) :
    loopI pRow pCol mask vol k a b c
      = if c = k ∧ 0 ≤ a ∧ a < (pRow.toNat : Int) ∧ 0 ≤ b ∧ b < pCol ∧ mask a b c = 0
          then -1024 else vol a b c := by
  unfold loopI
  exact loopI_apply _ _ _ _ _ _ _ _

theorem loopK_apply (n : Nat) (pRow pCol : Int) (mask vol : Img ℚ) (a b c : Int) :
    (List.range n).foldl (fun v (k : Nat) => loopI pRow pCol mask v (k : Int)) vol a b c
      = if 0 ≤ c ∧ c < n ∧ 0 ≤ a ∧ a < pRow ∧ 0 ≤ b ∧ b < pCol ∧ mask a b c = 0
          then -1024 else vol a b c := by
  induction n with
  | zero =>
    have : ¬ (0 ≤ c ∧ c < ((0 : Nat) : Int) ∧ 0 ≤ a ∧ a < pRow ∧ 0 ≤ b ∧ b < pCol
        ∧ mask a b c = 0) := by
      rintro ⟨h0, h1, _⟩
      simp at h1
      omega
    rw [if_neg this]
    rfl
  | succ n ih =>
    rw [List.range_succ, List.foldl_append, List.foldl_cons, List.foldl_nil, loopI_eq, ih]
    by_cases hm : mask a b c = 0
    · by_cases h1 : c = (n : Int) ∧ 0 ≤ a ∧ a < (pRow.toNat : Int) ∧ 0 ≤ b ∧ b < pCol
          ∧ mask a b c = 0
      · rw [if_pos h1, if_pos]
        obtain ⟨h1, h2, h3, h4, h5, h6⟩ := h1
        exact ⟨by omega, by push_cast; omega, h2, by omega, h4, h5, h6⟩
      · rw [if_neg h1]
        apply if_congr _ rfl rfl
        constructor
        · rintro ⟨g1, g2, g3, g4, g5, g6, g7⟩
          exact ⟨g1, by push_cast; omega, g3, g4, g5, g6, g7⟩
        · rintro ⟨g1, g2, g3, g4, g5, g6, g7⟩
          refine ⟨g1, ?_, g3, g4, g5, g6, g7⟩
          push_cast at g2
          by_contra hlt
          exact h1 ⟨by omega, g3, by omega, g5, g6, g7⟩
    · rw [if_neg (fun h => hm h.2.2.2.2.2), if_neg (fun h => hm h.2.2.2.2.2.2),
        if_neg (fun h => hm h.2.2.2.2.2.2)]

/-- Closed form of the Mask Applicator: a voxel is overwritten exactly when the
loop nest reaches it and its mask voxel is 0. -/
theorem applyMask_apply (pRow pCol pSli : Int) (mask vol : Img ℚ) (a b c : Int) :
    applyMask pRow pCol pSli mask vol a b c
      = if 0 ≤ a ∧ a < pRow ∧ 0 ≤ b ∧ b < pCol ∧ 0 ≤ c ∧ c < pSli ∧ mask a b c = 0
          then -1024 else vol a b c := by
  unfold applyMask
  rw [loopK_apply]
  apply if_congr _ rfl rfl
  constructor
  · rintro ⟨g1, g2, g3, g4, g5, g6, g7⟩
    exact ⟨g3, g4, g5, g6, g1, by omega, g7⟩
  · rintro ⟨g1, g2, g3, g4, g5, g6, g7⟩
    exact ⟨g5, by omega, g1, g2, g3, g4, g7⟩

/-! ## Mask Applicator: properties -/

theorem toInt_of_lt (n : Nat) (h : n < 2147483648) : toInt n = (n : Int) := by
  unfold toInt
  omega

theorem maskApplicator_apply (insize : Size3) (mask vol : Img ℚ) (a b c : Int) :
    maskApplicator insize mask vol a b c
      = if 0 ≤ a ∧ a < toInt insize.1 ∧ 0 ≤ b ∧ b < toInt insize.2.1
            ∧ 0 ≤ c ∧ c < toInt insize.2.2 ∧ mask a b c = 0
          then -1024 else vol a b c := by
  unfold maskApplicator
  exact applyMask_apply _ _ _ _ _ _ _ _

/-- For sizes that fit an `int` the Mask Applicator does at every voxel of the
volume what line 186 says: -1024 where the mask voxel is 0, the voxel of the
volume elsewhere. -/
theorem maskApplicator_voxel (insize : Size3) (M V : Img ℚ) (i j k : Int)
    (h31 : insize.1 < 2147483648 ∧ insize.2.1 < 2147483648 ∧ insize.2.2 < 2147483648)
    (hi : 0 ≤ i ∧ i < (insize.1 : Int)) (hj : 0 ≤ j ∧ j < (insize.2.1 : Int))
    (hk : 0 ≤ k ∧ k < (insize.2.2 : Int)) :
    maskApplicator insize M V i j k = (if M i j k = 0 then -1024 else V i j k) := by
  rw [maskApplicator_apply, toInt_of_lt _ h31.1, toInt_of_lt _ h31.2.1,
    toInt_of_lt _ h31.2.2]
  apply if_congr _ rfl rfl
  constructor
  · intro h
    exact h.2.2.2.2.2.2
  · intro h
    exact ⟨hi.1, hi.2, hj.1, hj.2, hk.1, hk.2, h⟩

/-- C1 fails on the code: on a volume of 2147483648 x 3 x 1 voxels the row
count wraps to the `int` -2147483648 (line 89), the loop nest runs no iteration,
and the voxel (0,0,0), whose mask voxel is 0, keeps its 40 HU instead of
becoming -1024: not every voxel is visited. -/
theorem maskApplicator_huge_untouched :
    maskZero 0 0 0 = 0
      ∧ toInt 2147483648 = -2147483648
      ∧ maskApplicator (2147483648, 3, 1) maskZero volEx 0 0 0 = 40 := by
  refine ⟨rfl, rfl, ?_⟩
  have h : toInt 2147483648 = -2147483648 := rfl
  rw [maskApplicator_apply, h, if_neg]
  · rfl
  · rintro ⟨_, hlt, _⟩
    exact absurd hlt (by decide)

/-- C9: applying the Mask Applicator a second time with the same mask changes
no voxel. -/
theorem applyMask_idempotent (pRow pCol pSli : Int) (M V : Img ℚ) :
    applyMask pRow pCol pSli M (applyMask pRow pCol pSli M V)
      = applyMask pRow pCol pSli M V := by
  funext a b c
  rw [applyMask_apply, applyMask_apply]
  split_ifs <;> rfl

/-! ## Command line: properties -/

theorem outputFlag_four (argv : List String) (h : argv.length = 4) :
    outputFlag argv = true := by
  unfold outputFlag ptrToBool
  rw [if_pos h]
  have h3 : 3 < argv.length := by omega
  rw [List.get?_eq_get h3]
  rfl

/-- C2 fails on the code: with the output-type argument "0" the flag is the
truth value of the pointer `argv[3]`, so the writer is given the body mask,
where the usage text promises the bed-removed image.  Without the argument the
bed-removed image is written, with "1" the body mask. -/
theorem writerInput_zero_is_mask :
    writerInput ["BedRemoveFilter", "ct.mha", "out.mha", "0"] = Artifact.bodyMask
      ∧ usageArtifact (some "0") = some Artifact.bedRemoved
      ∧ writerInput ["BedRemoveFilter", "ct.mha", "out.mha"] = Artifact.bedRemoved
      ∧ writerInput ["BedRemoveFilter", "ct.mha", "out.mha", "1"] = Artifact.bodyMask := by
  refine ⟨?_, rfl, rfl, ?_⟩
  · have h := outputFlag_four ["BedRemoveFilter", "ct.mha", "out.mha", "0"] rfl
    unfold writerInput
    rw [if_pos h]
  · have h := outputFlag_four ["BedRemoveFilter", "ct.mha", "out.mha", "1"] rfl
    unfold writerInput
    rw [if_pos h]

/-! ## Downsampler geometry: properties -/

/-- C4: the working grid has the in-plane sizes divided by 3, rounded down, and
the slice count unchanged; a 301 x 301 x 50 input passes every test before the
Downsampler and gets a 100 x 100 x 50 working grid. -/
theorem outputSize_floor (r c s : Nat) :
    outputSize (r, c, s) = (r / 3, c / 3, s)
      ∧ (3 * (outputSize (r, c, s)).1 ≤ r ∧ r < 3 * (outputSize (r, c, s)).1 + 3)
      ∧ (3 * (outputSize (r, c, s)).2.1 ≤ c ∧ c < 3 * (outputSize (r, c, s)).2.1 + 3)
      ∧ (∀ g : Geometry, (resampleDNRequest g).size = outputSize g.size)
      ∧ outputSize (301, 301, 50) = (100, 100, 50)
      ∧ preFilter ["BedRemoveFilter", "ct.mha", "out.mha"] (Except.ok geomEx)
          = Except.ok (resampleDNRequest geomEx) := by
  refine ⟨rfl, ⟨?_, ?_⟩, ⟨?_, ?_⟩, fun _ => rfl, rfl, rfl⟩ <;>
    (simp only [outputSize]; omega)

/-- C5 fails on the code: a readable 2 x 2 x 5 volume is not rejected; `main`
reaches the Downsampler and runs it with the working size 0 x 0 x 5. -/
theorem preFilter_accepts_degenerate :
    preFilter ["BedRemoveFilter", "ct.mha", "out.mha"] (Except.ok geomDegenerate)
        = Except.ok (resampleDNRequest geomDegenerate)
      ∧ (resampleDNRequest geomDegenerate).size = (0, 0, 5) := by
  exact ⟨rfl, rfl⟩

/-- C5 as amended: before the first filter stage `main` exits with failure
exactly when fewer than two file names are given or the reader throws; no test
looks at the dimensions, and any volume read reaches the Downsampler, which is
run with the size `outputSize`. -/
theorem preFilter_error_iff (argv : List String) (file : Except String Geometry) :
    ((∃ e, preFilter argv file = Except.error e)
        ↔ (argv.length < 3 ∨ ∃ msg, file = Except.error msg))
      ∧ ∀ g, file = Except.ok g → ¬ argv.length < 3 →
          preFilter argv file = Except.ok (resampleDNRequest g)
            ∧ (resampleDNRequest g).size = outputSize g.size := by
  constructor
  · unfold preFilter
    by_cases h : argv.length < 3
    · rw [if_pos h]
      exact ⟨fun _ => Or.inl h, fun _ => ⟨_, rfl⟩⟩
    · rw [if_neg h]
      cases file with
      | error msg => exact ⟨fun _ => Or.inr ⟨msg, rfl⟩, fun _ => ⟨_, rfl⟩⟩
      | ok g =>
        constructor
        · rintro ⟨e, he⟩
          cases he
        · rintro (h1 | ⟨msg, hm⟩)
          · exact absurd h1 h
          · cases hm
  · intro g hg hlen
    subst hg
    unfold preFilter
    rw [if_neg hlen]
    exact ⟨rfl, rfl⟩

theorem cast_div_three_ne_zero (r : Nat) (h : 3 ≤ r) : ((r / 3 : Nat) : ℚ) ≠ 0 := by
  have : 0 < r / 3 := Nat.div_pos h (by norm_num)
  exact_mod_cast this.ne'

theorem outputSpacing_eq (sp : Spacing3) (sz : Size3) (hr : 3 ≤ sz.1) (hc : 3 ≤ sz.2.1) :
    outputSpacing sp sz
      = some (sp.1 * ((sz.1 : ℚ) / ((sz.1 / 3 : Nat) : ℚ)),
              sp.2.1 * ((sz.2.1 : ℚ) / ((sz.2.1 / 3 : Nat) : ℚ)), sp.2.2) := by
  unfold outputSpacing divDouble outputSize
  simp only [if_neg (cast_div_three_ne_zero _ hr), if_neg (cast_div_three_ne_zero _ hc)]

/-- C8: for in-plane sizes of at least 3, over exact rationals, the working
spacing times the working size equals the input spacing times the input size in
both in-plane axes, the slice spacing is copied, and the working grid is given
the input's origin and direction. -/
theorem resampleDN_extent (g : Geometry) (hr : 3 ≤ g.size.1) (hc : 3 ≤ g.size.2.1) :
    ∃ ox oy oz : ℚ, (resampleDNRequest g).spacing = some (ox, oy, oz)
      ∧ ox * (((resampleDNRequest g).size.1 : Nat) : ℚ) = g.spacing.1 * (g.size.1 : ℚ)
      ∧ oy * (((resampleDNRequest g).size.2.1 : Nat) : ℚ) = g.spacing.2.1 * (g.size.2.1 : ℚ)
      ∧ oz = g.spacing.2.2
      ∧ (resampleDNRequest g).size = (g.size.1 / 3, g.size.2.1 / 3, g.size.2.2)
      ∧ (resampleDNRequest g).origin = g.origin
      ∧ (resampleDNRequest g).direction = g.direction := by
  refine ⟨_, _, _, outputSpacing_eq g.spacing g.size hr hc, ?_, ?_, rfl, rfl, rfl, rfl⟩
  · show g.spacing.1 * ((g.size.1 : ℚ) / ((g.size.1 / 3 : Nat) : ℚ))
      * ((g.size.1 / 3 : Nat) : ℚ) = _
    have := cast_div_three_ne_zero _ hr
    field_simp
  · show g.spacing.2.1 * ((g.size.2.1 : ℚ) / ((g.size.2.1 / 3 : Nat) : ℚ))
      * ((g.size.2.1 / 3 : Nat) : ℚ) = _
    have := cast_div_three_ne_zero _ hc
    field_simp

/-- Instance of C8 on the 301 x 301 x 50 scan: the working grid is
100 x 100 x 50 with in-plane spacing 2.107 mm, and 2.107 * 100 = 0.7 * 301. -/
theorem resampleDN_extent_witness :
    ∃ ox oy oz : ℚ, (resampleDNRequest geomEx).spacing = some (ox, oy, oz)
      ∧ ox * (((resampleDNRequest geomEx).size.1 : Nat) : ℚ)
          = geomEx.spacing.1 * (geomEx.size.1 : ℚ)
      ∧ oy * (((resampleDNRequest geomEx).size.2.1 : Nat) : ℚ)
          = geomEx.spacing.2.1 * (geomEx.size.2.1 : ℚ)
      ∧ oz = geomEx.spacing.2.2
      ∧ (resampleDNRequest geomEx).size = (geomEx.size.1 / 3, geomEx.size.2.1 / 3, geomEx.size.2.2)
      ∧ (resampleDNRequest geomEx).origin = geomEx.origin
      ∧ (resampleDNRequest geomEx).direction = geomEx.direction :=
  resampleDN_extent geomEx (by decide) (by decide)

/-! ## Body Thresholder: properties -/

/-- C3: a voxel of the thresholded mask is 1 exactly when its intensity v
satisfies -300 <= v <= 3071, both bounds included, and is 0 otherwise; so every
voxel of the mask is 0 or 1. -/
theorem binaryskinfilter_voxel (img : Img ℚ) (i j k : Int) :
    (binaryskinfilter img i j k = 1 ↔ (-300 ≤ img i j k ∧ img i j k ≤ 3071))
      ∧ (binaryskinfilter img i j k = 0 ↔ ¬ (-300 ≤ img i j k ∧ img i j k ≤ 3071))
      ∧ (binaryskinfilter img i j k = 0 ∨ binaryskinfilter img i j k = 1) := by
  unfold binaryskinfilter binaryThreshold
  by_cases h : -300 ≤ img i j k ∧ img i j k ≤ 3071
  · rw [if_pos h]
    simp [h]
  · rw [if_neg h]
    simp [h]

/-! ## Morphological Refiner: lemmas -/

theorem Region.contains_iff (R : Region) (i j k : Int) :
    R.contains i j k = true ↔
      (R.index.1 ≤ i ∧ i < R.index.1 + (R.size.1 : Int)
        ∧ R.index.2.1 ≤ j ∧ j < R.index.2.1 + (R.size.2.1 : Int)
        ∧ R.index.2.2 ≤ k ∧ k < R.index.2.2 + (R.size.2.2 : Int)) := by
  unfold Region.contains
  exact decide_eq_true_iff

theorem Region.ofSize_contains_iff (sz : Size3) (i j k : Int) :
    (Region.ofSize sz).contains i j k = true ↔
      (0 ≤ i ∧ i < (sz.1 : Int) ∧ 0 ≤ j ∧ j < (sz.2.1 : Int) ∧ 0 ≤ k ∧ k < (sz.2.2 : Int)) := by
  rw [Region.contains_iff]
  simp only [Region.ofSize, zero_add]

theorem Region.contains_pad (R : Region) (rad : Nat) (i j k : Int)
    (h : R.contains i j k = true) : (R.pad rad).contains i j k = true := by
  rw [Region.contains_iff] at h ⊢
  simp only [Region.pad]
  push_cast
  omega

theorem binaryDilate_of_fg (R : Region) (K : List (Int × Int × Int)) (fg : Nat)
    (f : Img Nat) (i j k : Int) (h : f i j k = fg) : binaryDilate R K fg f i j k = fg := by
  unfold binaryDilate
  split_ifs
  · rfl
  · exact h

theorem binaryDilate_of_reach (R : Region) (K : List (Int × Int × Int)) (fg : Nat)
    (f : Img Nat) (i j k : Int) (d : Int × Int × Int) (hd : d ∈ K)
    (hR : R.contains (i - d.1) (j - d.2.1) (k - d.2.2) = true)
    (hf : f (i - d.1) (j - d.2.1) (k - d.2.2) = fg) :
    binaryDilate R K fg f i j k = fg := by
  unfold binaryDilate
  rw [if_pos]
  rw [List.any_eq_true]
  exact ⟨d, hd, by simp [hR, hf]⟩

theorem binaryDilate_fg_cases (R : Region) (K : List (Int × Int × Int)) (fg : Nat)
    (f : Img Nat) (i j k : Int) (h : binaryDilate R K fg f i j k = fg) :
    f i j k = fg ∨ ∃ d ∈ K, R.contains (i - d.1) (j - d.2.1) (k - d.2.2) = true
      ∧ f (i - d.1) (j - d.2.1) (k - d.2.2) = fg := by
  unfold binaryDilate at h
  split_ifs at h with hany
  · right
    rw [List.any_eq_true] at hany
    obtain ⟨d, hd, hh⟩ := hany
    simp only [Bool.and_eq_true, decide_eq_true_eq] at hh
    exact ⟨d, hd, hh.1, hh.2⟩
  · exact Or.inl h

theorem binaryDilate_values (R : Region) (K : List (Int × Int × Int)) (fg : Nat)
    (f : Img Nat) (i j k : Int) :
    binaryDilate R K fg f i j k = fg ∨ binaryDilate R K fg f i j k = f i j k := by
  unfold binaryDilate
  split_ifs
  · exact Or.inl rfl
  · exact Or.inr rfl

theorem binaryErode_values (R : Region) (K : List (Int × Int × Int)) (fg bg : Nat)
    (f : Img Nat) (i j k : Int) :
    binaryErode R K fg bg f i j k = bg ∨ binaryErode R K fg bg f i j k = f i j k := by
  unfold binaryErode
  split_ifs
  · exact Or.inl rfl
  · exact Or.inr rfl

theorem binaryErode_keeps (R : Region) (K : List (Int × Int × Int)) (fg bg : Nat)
    (f : Img Nat) (i j k : Int)
    (h : ∀ d ∈ K, R.contains (i + d.1) (j + d.2.1) (k + d.2.2) = true →
      f (i + d.1) (j + d.2.1) (k + d.2.2) = fg) :
    binaryErode R K fg bg f i j k = f i j k := by
  unfold binaryErode
  rw [if_neg]
  rintro ⟨_, hany⟩
  rw [List.any_eq_true] at hany
  obtain ⟨d, hd, hh⟩ := hany
  simp only [Bool.and_eq_true, decide_eq_true_eq] at hh
  exact hh.2 (h d hd hh.1)

theorem binaryErode_fg (R : Region) (K : List (Int × Int × Int)) (fg bg : Nat)
    (hne : fg ≠ bg) (f : Img Nat) (i j k : Int) (h : binaryErode R K fg bg f i j k = fg) :
    f i j k = fg ∧ ∀ d ∈ K, R.contains (i + d.1) (j + d.2.1) (k + d.2.2) = true →
      f (i + d.1) (j + d.2.1) (k + d.2.2) = fg := by
  unfold binaryErode at h
  split_ifs at h with hc
  · exact absurd h.symm hne
  · refine ⟨h, ?_⟩
    intro d hd hR
    by_contra hf
    apply hc
    refine ⟨h, ?_⟩
    rw [List.any_eq_true]
    exact ⟨d, hd, by simp [hR, hf]⟩

theorem mem_axis (r : Nat) (x : Int) :
    x ∈ (List.range (2 * r + 1)).map (fun (n : Nat) => (n : Int) - (r : Int))
      ↔ (-(r : Int) ≤ x ∧ x ≤ (r : Int)) := by
  rw [List.mem_map]
  constructor
  · rintro ⟨n, hn, rfl⟩
    rw [List.mem_range] at hn
    constructor <;> omega
  · intro h
    refine ⟨(x + r).toNat, ?_, ?_⟩
    · rw [List.mem_range]
      omega
    · show ((x + (r : Int)).toNat : Int) - (r : Int) = x
      omega

theorem mem_ballOffsets (r : Nat) (d : Int × Int × Int) :
    d ∈ ballOffsets r ↔
      ((-(r : Int) ≤ d.1 ∧ d.1 ≤ (r : Int)) ∧ (-(r : Int) ≤ d.2.1 ∧ d.2.1 ≤ (r : Int))
        ∧ (-(r : Int) ≤ d.2.2 ∧ d.2.2 ≤ (r : Int)))
      ∧ d.1 * d.1 + d.2.1 * d.2.1 + d.2.2 * d.2.2 ≤ (r : Int) * (r : Int) := by
  obtain ⟨x, y, z⟩ := d
  unfold ballOffsets
  simp only [List.mem_filter, List.mem_flatMap, decide_eq_true_eq]
  constructor
  · rintro ⟨⟨a, ha, b, hb, hc⟩, hsq⟩
    rw [List.mem_map] at hc
    obtain ⟨c, hc, heq⟩ := hc
    simp only [Prod.mk.injEq] at heq
    obtain ⟨rfl, rfl, rfl⟩ := heq
    exact ⟨⟨(mem_axis r _).mp ha, (mem_axis r _).mp hb, (mem_axis r _).mp hc⟩, hsq⟩
  · rintro ⟨⟨hx, hy, hz⟩, hsq⟩
    refine ⟨⟨x, (mem_axis r x).mpr hx, y, (mem_axis r y).mpr hy, ?_⟩, hsq⟩
    rw [List.mem_map]
    exact ⟨z, (mem_axis r z).mpr hz, rfl⟩

theorem ballOffsets_symm (r : Nat) (d : Int × Int × Int) (h : d ∈ ballOffsets r) :
    (-d.1, -d.2.1, -d.2.2) ∈ ballOffsets r := by
  obtain ⟨x, y, z⟩ := d
  rw [mem_ballOffsets] at h ⊢
  simp only [] at h ⊢
  obtain ⟨⟨hx, hy, hz⟩, hsq⟩ := h
  refine ⟨⟨by constructor <;> omega, by constructor <;> omega, by constructor <;> omega⟩, ?_⟩
  simp only [neg_mul_neg]
  exact hsq

/-- For an element closed under reflection, such as the ball, reaching with
`+d` and reaching with `-d` find the same voxels: the direction in which erosion
and dilation apply the element is immaterial. -/
theorem any_reflect (K : List (Int × Int × Int))
    (hK : ∀ d ∈ K, (-d.1, -d.2.1, -d.2.2) ∈ K) (P : Int → Int → Int → Bool) (i j k : Int) :
    K.any (fun d => P (i + d.1) (j + d.2.1) (k + d.2.2))
      = K.any (fun d => P (i - d.1) (j - d.2.1) (k - d.2.2)) := by
  rw [Bool.eq_iff_iff, List.any_eq_true, List.any_eq_true]
  constructor
  · rintro ⟨d, hd, h⟩
    refine ⟨_, hK d hd, ?_⟩
    simp only [sub_neg_eq_add]
    exact h
  · rintro ⟨d, hd, h⟩
    refine ⟨_, hK d hd, ?_⟩
    simp only [← sub_eq_add_neg]
    exact h

/-- Opening never switches a voxel of the region on. -/
theorem morphOpening_le (R : Region) (K : List (Int × Int × Int)) (f : Img Nat)
    (i j k : Int) (hR : R.contains i j k = true) (h : morphOpening R K 1 f i j k = 1) :
    f i j k = 1 := by
  unfold morphOpening at h
  rcases binaryDilate_fg_cases _ _ _ _ _ _ _ h with h1 | ⟨d, hd, _, hf⟩
  · exact (binaryErode_fg R K 1 0 (by decide) f i j k h1).1
  · have h2 := (binaryErode_fg R K 1 0 (by decide) f _ _ _ hf).2 d hd
    simp only [sub_add_cancel] at h2
    exact h2 hR

theorem padImage_inside (R : Region) (f : Img Nat) (i j k : Int)
    (hR : R.contains i j k = true) : padImage R f i j k = f i j k := by
  unfold padImage
  rw [if_pos hR]

/-- Closing never switches a voxel of the region off. -/
theorem morphClosing_ge (R : Region) (rad : Nat) (K : List (Int × Int × Int)) (f : Img Nat)
    (i j k : Int) (hR : R.contains i j k = true) (h : f i j k = 1) :
    morphClosing R rad K 1 f i j k = 1 := by
  unfold morphClosing
  have hpad : padImage R f i j k = 1 := by
    rw [padImage_inside R f i j k hR]
    exact h
  rw [binaryErode_keeps]
  · exact binaryDilate_of_fg _ _ _ _ _ _ _ hpad
  · intro d hd _
    apply binaryDilate_of_reach _ _ _ _ _ _ _ d hd
    · simp only [add_sub_cancel_right]
      exact Region.contains_pad R rad i j k hR
    · simp only [add_sub_cancel_right]
      exact hpad

theorem morphOpening_binary (R : Region) (K : List (Int × Int × Int)) (f : Img Nat)
    (i j k : Int) (h : f i j k = 0 ∨ f i j k = 1) :
    morphOpening R K 1 f i j k = 0 ∨ morphOpening R K 1 f i j k = 1 := by
  unfold morphOpening
  rcases binaryDilate_values R K 1 (binaryErode R K 1 0 f) i j k with h1 | h1
  · exact Or.inr h1
  · rw [h1]
    rcases binaryErode_values R K 1 0 f i j k with h2 | h2
    · exact Or.inl h2
    · rw [h2]
      exact h

theorem morphClosing_binary (R : Region) (rad : Nat) (K : List (Int × Int × Int))
    (f : Img Nat) (i j k : Int) (hR : R.contains i j k = true)
    (h : f i j k = 0 ∨ f i j k = 1) :
    morphClosing R rad K 1 f i j k = 0 ∨ morphClosing R rad K 1 f i j k = 1 := by
  unfold morphClosing
  rcases binaryErode_values (R.pad rad) K 1 0
      (binaryDilate (R.pad rad) K 1 (padImage R f)) i j k with h1 | h1
  · exact Or.inl h1
  · rw [h1]
    rcases binaryDilate_values (R.pad rad) K 1 (padImage R f) i j k with h2 | h2
    · exact Or.inr h2
    · rw [h2, padImage_inside R f i j k hR]
      exact h

theorem countFg_mono {α β : Type} [DecidableEq α] [One α] [DecidableEq β] [One β]
    (sz : Size3) (f : Img α) (g : Img β)
    (h : ∀ i j k : Int, (Region.ofSize sz).contains i j k = true → f i j k = 1 → g i j k = 1) :
    countFg sz f ≤ countFg sz g := by
  unfold countFg
  apply Finset.sum_le_sum
  intro k hk
  apply Finset.sum_le_sum
  intro i hi
  apply Finset.sum_le_sum
  intro j hj
  rw [Finset.mem_range] at hi hj hk
  have hR : (Region.ofSize sz).contains (i : Int) (j : Int) (k : Int) = true := by
    rw [Region.ofSize_contains_iff]
    omega
  by_cases hf : f (i : Int) (j : Int) (k : Int) = 1
  · rw [if_pos hf, if_pos (h _ _ _ hR hf)]
  · rw [if_neg hf]
    exact Nat.zero_le _

theorem closingFilter_eq_one_iff (sz : Size3) (f : Img Nat) (i j k : Int) :
    closingFilter sz f i j k = 1 ↔ closingMask sz f i j k = 1 := by
  unfold closingFilter
  exact Nat.cast_eq_one

/-! ## Morphological Refiner: properties -/

/-- C10: for binary masks B and C on a working grid of size `sz`, the radius-3
opening of B has at most as many foreground voxels as B, the radius-40 closing
of C has at least as many as C, and both results hold only 0 and 1 on the
grid. -/
theorem refiner_monotone (sz : Size3) (B C : Img Nat)
    (hB : ∀ i j k : Int, (Region.ofSize sz).contains i j k = true → B i j k = 0 ∨ B i j k = 1)
    (hC : ∀ i j k : Int, (Region.ofSize sz).contains i j k = true → C i j k = 0 ∨ C i j k = 1) :
    countFg sz (openingFilter sz B) ≤ countFg sz B
      ∧ countFg sz C ≤ countFg sz (closingFilter sz C)
      ∧ (∀ i j k : Int, (Region.ofSize sz).contains i j k = true →
          openingFilter sz B i j k = 0 ∨ openingFilter sz B i j k = 1)
      ∧ (∀ i j k : Int, (Region.ofSize sz).contains i j k = true →
          closingFilter sz C i j k = 0 ∨ closingFilter sz C i j k = 1) := by
  refine ⟨?_, ?_, ?_, ?_⟩
  · apply countFg_mono
    intro i j k hR h
    exact morphOpening_le _ _ _ _ _ _ hR h
  · apply countFg_mono
    intro i j k hR h
    rw [closingFilter_eq_one_iff]
    exact morphClosing_ge _ _ _ _ _ _ _ hR h
  · intro i j k hR
    exact morphOpening_binary _ _ _ _ _ _ (hB i j k hR)
  · intro i j k hR
    rcases morphClosing_binary (Region.ofSize sz) 40 (ballOffsets 40) C i j k hR (hC i j k hR)
      with h | h
    · left
      show ((closingMask sz C i j k : Nat) : ℚ) = 0
      unfold closingMask
      rw [h]
      rfl
    · right
      show ((closingMask sz C i j k : Nat) : ℚ) = 1
      unfold closingMask
      rw [h]
      exact Nat.cast_one

/-- Instance of C10 on an 8 x 4 x 2 grid with a block of foreground. -/
theorem refiner_monotone_witness :
    countFg (8, 4, 2) (openingFilter (8, 4, 2) blockEx) ≤ countFg (8, 4, 2) blockEx
      ∧ countFg (8, 4, 2) blockEx ≤ countFg (8, 4, 2) (closingFilter (8, 4, 2) blockEx) := by
  have hb : ∀ i j k : Int, (Region.ofSize (8, 4, 2)).contains i j k = true →
      blockEx i j k = 0 ∨ blockEx i j k = 1 := by
    intro i j k _
    unfold blockEx
    split_ifs
    · exact Or.inr rfl
    · exact Or.inl rfl
  have h := refiner_monotone (8, 4, 2) blockEx blockEx hb hb
  exact ⟨h.1, h.2.1⟩

/-! ## Morphological Refiner on uniform masks -/

theorem morphOpening_ones (R : Region) (K : List (Int × Int × Int)) (f : Img Nat)
    (h : ∀ a b c : Int, R.contains a b c = true → f a b c = 1)
    (i j k : Int) (hR : R.contains i j k = true) : morphOpening R K 1 f i j k = 1 := by
  unfold morphOpening
  apply binaryDilate_of_fg
  rw [binaryErode_keeps]
  · exact h i j k hR
  · intro d _ hd
    exact h _ _ _ hd

theorem morphOpening_zeros (R : Region) (K : List (Int × Int × Int)) (f : Img Nat)
    (h : ∀ a b c : Int, R.contains a b c = true → f a b c = 0)
    (i j k : Int) (hR : R.contains i j k = true) : morphOpening R K 1 f i j k = 0 := by
  rcases morphOpening_binary R K f i j k (Or.inl (h i j k hR)) with h0 | h1
  · exact h0
  · have := morphOpening_le R K f i j k hR h1
    rw [h i j k hR] at this
    exact absurd this (by decide)

theorem padImage_zeros (R : Region) (f : Img Nat)
    (h : ∀ a b c : Int, R.contains a b c = true → f a b c = 0) (a b c : Int) :
    padImage R f a b c = 0 := by
  unfold padImage
  by_cases hc : R.contains a b c = true
  · rw [if_pos hc]
    exact h a b c hc
  · rw [if_neg hc]

theorem morphClosing_zeros (R : Region) (rad : Nat) (K : List (Int × Int × Int))
    (f : Img Nat) (h : ∀ a b c : Int, R.contains a b c = true → f a b c = 0)
    (i j k : Int) : morphClosing R rad K 1 f i j k = 0 := by
  unfold morphClosing
  have hD : binaryDilate (R.pad rad) K 1 (padImage R f) i j k = 0 := by
    rcases binaryDilate_values (R.pad rad) K 1 (padImage R f) i j k with h1 | h1
    · rcases binaryDilate_fg_cases _ _ _ _ _ _ _ h1 with h2 | ⟨d, _, _, h2⟩
      · rw [padImage_zeros R f h] at h2
        exact absurd h2 (by decide)
      · rw [padImage_zeros R f h] at h2
        exact absurd h2 (by decide)
    · rw [h1]
      exact padImage_zeros R f h i j k
  rcases binaryErode_values (R.pad rad) K 1 0
    (binaryDilate (R.pad rad) K 1 (padImage R f)) i j k with h1 | h1
  · exact h1
  · rw [h1]
    exact hD

/-! ## The pipeline: lemmas -/

theorem binaryskinfilter_body (img : Img ℚ) (i j k : Int)
    (h : -300 ≤ img i j k ∧ img i j k ≤ 3071) : binaryskinfilter img i j k = 1 := by
  unfold binaryskinfilter binaryThreshold
  rw [if_pos h]

theorem binaryskinfilter_air (img : Img ℚ) (i j k : Int)
    (h : img i j k < -300) : binaryskinfilter img i j k = 0 := by
  unfold binaryskinfilter binaryThreshold
  rw [if_neg]
  intro hc
  linarith [hc.1]

/-- Whatever the resampler: when the working-resolution volume lies inside the
threshold window at every voxel of the working grid, the refined mask is 1 at
every voxel of the working grid. -/
theorem refined_of_body (sz : Size3) (down : Img ℚ)
    (h : ∀ a b c : Int, (Region.ofSize sz).contains a b c = true →
      -300 ≤ down a b c ∧ down a b c ≤ 3071)
    (i j k : Int) (hR : (Region.ofSize sz).contains i j k = true) :
    closingFilter sz (openingFilter sz (binaryskinfilter down)) i j k = 1 := by
  rw [closingFilter_eq_one_iff]
  unfold closingMask
  apply morphClosing_ge _ _ _ _ _ _ _ hR
  unfold openingFilter
  apply morphOpening_ones _ _ _ _ _ _ _ hR
  intro a b c hab
  exact binaryskinfilter_body down a b c (h a b c hab)

/-- Whatever the resampler: when the working-resolution volume lies below the
threshold window at every voxel of the working grid, the refined mask is 0
everywhere. -/
theorem refined_of_air (sz : Size3) (down : Img ℚ)
    (h : ∀ a b c : Int, (Region.ofSize sz).contains a b c = true → down a b c < -300)
    (i j k : Int) :
    closingFilter sz (openingFilter sz (binaryskinfilter down)) i j k = 0 := by
  unfold closingFilter closingMask
  rw [morphClosing_zeros]
  · exact Nat.cast_zero
  · intro a b c hab
    unfold openingFilter
    apply morphOpening_zeros _ _ _ _ _ _ _ hab
    intro a' b' c' hab'
    exact binaryskinfilter_air down a' b' c' (h a' b' c' hab')

theorem pipeline_eq (resample : Resampler) (V : Volume)
    (hr : 3 ≤ V.geom.size.1) (hc : 3 ≤ V.geom.size.2.1) :
    pipeline resample V = some (runStages resample V
      (V.geom.spacing.1 * ((V.geom.size.1 : ℚ) / ((V.geom.size.1 / 3 : Nat) : ℚ)),
       V.geom.spacing.2.1 * ((V.geom.size.2.1 : ℚ) / ((V.geom.size.2.1 / 3 : Nat) : ℚ)),
       V.geom.spacing.2.2)) := by
  unfold pipeline
  rw [outputSpacing_eq V.geom.spacing V.geom.size hr hc]

theorem runStages_bedRemoved_eq (resample : Resampler) (V : Volume) (osp : Spacing3) :
    (runStages resample V osp).bedRemoved
      = maskApplicator V.geom.size (runStages resample V osp).mask V.px := by
  simp only [runStages]

/-- Closed form of the bed-removed output: a voxel is overwritten exactly when
the loop nest reaches it and the reconstructed mask is 0 there. -/
theorem runStages_bedRemoved (resample : Resampler) (V : Volume) (osp : Spacing3)
    (i j k : Int) :
    (runStages resample V osp).bedRemoved i j k
      = if 0 ≤ i ∧ i < toInt V.geom.size.1 ∧ 0 ≤ j ∧ j < toInt V.geom.size.2.1
            ∧ 0 ≤ k ∧ k < toInt V.geom.size.2.2
            ∧ (runStages resample V osp).mask i j k = 0
          then -1024 else V.px i j k := by
  rw [runStages_bedRemoved_eq, maskApplicator_apply]

theorem airHuge_uniform (i j k : Int) : airHuge.px i j k = -1000 := rfl

/-! ## The pipeline on uniform volumes: properties -/

/-- C7 fails on the code: on a volume of 2147483648 x 3 x 1 voxels of air, all
at -1000 HU, the pipeline returns, but the row count wraps to a negative `int`
(line 89), the loop nest runs no iteration and the voxel (0,0,0) of the
bed-removed output keeps its -1000 HU instead of becoming -1024, whatever the
resampling filter returns. -/
theorem air_huge_untouched (resample : Resampler) :
    ∃ st, pipeline resample airHuge = some st ∧ st.bedRemoved 0 0 0 = -1000
      ∧ (∀ i j k : Int, airHuge.px i j k = -1000) := by
  refine ⟨_, pipeline_eq resample airHuge (by decide) (by decide), ?_, airHuge_uniform⟩
  have h : toInt airHuge.geom.size.1 = -2147483648 := rfl
  rw [runStages_bedRemoved, h, if_neg]
  · rfl
  · rintro ⟨_, hlt, _⟩
    exact absurd hlt (by decide)

end BedRemove
